import Mathlib

/-!
Verification of `meza/action-patrons` (`src/update-patrons.mjs`, three script
variants separated by document markers in the source file).

The development shallowly embeds the text-substitution engine
(`updateFileContent` together with the regular expression and replacement
string built in `main`), the roster validation and name extraction, and the
synchronization controller (`main`) of each of the three script variants.
File, network, subprocess and pull-request effects are modelled by explicit
oracles passed in an environment record; every definition is executable.
-/

namespace ActionPatrons

deriving instance DecidableEq for Except

/-- The character class matched by `\s` in a JavaScript regular expression
(ECMA-262 WhiteSpace and LineTerminator code points). -/
def jsWs (c : Char) : Bool :=
  c == ' ' || c == '\t' || c == '\n' || c == '\x0b' || c == '\x0c' || c == '\r' ||
  c == ' ' || c == ' ' || (' ' ≤ c && c ≤ ' ') ||
  c == ' ' || c == ' ' || c == ' ' || c == ' ' ||
  c == '　' || c == '﻿'

/-- Length of the maximal `\s`-whitespace prefix of a character list. -/
def wsRun : List Char → Nat
  | [] => 0
  | c :: t => if jsWs c then wsRun t + 1 else 0

/-- `String.prototype.indexOf` restricted to the substring search the scripts
perform: the least index at which `pat` occurs in `t`, or `none` (the
JavaScript `-1`). -/
def idxOf? (pat : List Char) : List Char → Option Nat
  | [] => if pat.isPrefixOf [] then some 0 else none
  | c :: t' =>
    if pat.isPrefixOf (c :: t') then some 0
    else (idxOf? pat t').map (· + 1)

/-- One quantified atom of the compiled regular expression.  The fragment is
exactly what `new RegExp` sees in this program: single-character atoms
(literals, escapes, `.`, the class `[\s\S]`) under the quantifiers
`*` (greedy), `*?` (lazy), `+`, `+?`, `?`.  `once` is an unquantified atom;
`+` is compiled to `once` followed by a star during parsing. -/
inductive RItem where
  | once : (Char → Bool) → RItem
  | starG : (Char → Bool) → RItem
  | starL : (Char → Bool) → RItem
  | optG : (Char → Bool) → RItem

/-- Greedy star with backtracking: consume as many `p`-characters as
possible, then on failure of the continuation `k` give characters back one at
a time (longest match attempted first, as in the ECMAScript semantics). -/
def starGLoop (p : Char → Bool) (k : List Char → Option (List Char)) :
    List Char → Option (List Char)
  | [] => k []
  | c :: t =>
    if p c then
      match starGLoop p k t with
      | some r => some r
      | none => k (c :: t)
    else k (c :: t)

/-- Lazy star: try the continuation first, and only on failure consume one
`p`-character and retry (shortest match attempted first). -/
def starLLoop (p : Char → Bool) (k : List Char → Option (List Char)) :
    List Char → Option (List Char)
  | [] => k []
  | c :: t =>
    match k (c :: t) with
    | some r => some r
    | none => if p c then starLLoop p k t else none

/-- Match a sequence of items at the head of the text, returning the
remaining suffix on success.  Backtracking order follows the ECMAScript
semantics of the corresponding quantifiers. -/
def matchSeq : List RItem → List Char → Option (List Char)
  | [], t => some t
  | .once p :: is, t =>
    match t with
    | [] => none
    | c :: t' => if p c then matchSeq is t' else none
  | .starG p :: is, t => starGLoop p (fun u => matchSeq is u) t
  | .starL p :: is, t => starLLoop p (fun u => matchSeq is u) t
  | .optG p :: is, t =>
    match t with
    | [] => matchSeq is []
    | c :: t' =>
      if p c then
        match matchSeq is t' with
        | some r => some r
        | none => matchSeq is (c :: t')
      else matchSeq is (c :: t')

/-- Leftmost match search, as performed by a non-global `RegExp`: attempt the
sequence at index `i`, `i+1`, … and return the half-open span
`(start, stop)` of the first successful match. -/
def findFrom (items : List RItem) : List Char → Nat → Option (Nat × Nat)
  | [], i =>
    match matchSeq items [] with
    | some r => some (i, i + (0 - r.length))
    | none => none
  | c :: t', i =>
    match matchSeq items (c :: t') with
    | some r => some (i, i + ((c :: t').length - r.length))
    | none => findFrom items t' (i + 1)

/-- The backquote character (used by the `$`-escape of
`String.prototype.replace`). -/
def bquote : Char := Char.ofNat 96

/-- The apostrophe character (used by the `$`-escape of
`String.prototype.replace`). -/
def squote : Char := Char.ofNat 39

/-- Expansion of the replacement string of `String.prototype.replace`:
`$$`, `$&`, `$`-backquote and `$`-apostrophe are substituted; a `$` followed
by anything else is literal (the compiled pattern has no capture groups, so
`$1`… stay literal). -/
def expandRepl (before matched after : List Char) : List Char → List Char
  | [] => []
  | c :: r =>
    if c = '$' then
      match r with
      | '$' :: r' => '$' :: expandRepl before matched after r'
      | '&' :: r' => matched ++ expandRepl before matched after r'
      | c2 :: r' =>
        if c2 = bquote then before ++ expandRepl before matched after r'
        else if c2 = squote then after ++ expandRepl before matched after r'
        else c :: c2 :: expandRepl before matched after r'
      | [] => [c]
    else c :: expandRepl before matched after r

/-- `text.replace(pattern, replacement)` for a non-global pattern: replace the
leftmost match span by the expanded replacement, or return the text unchanged
when the pattern does not match anywhere. -/
def jsReplaceOnce (items : List RItem) (repl text : List Char) : List Char :=
  match findFrom items text 0 with
  | none => text
  | some (i, j) =>
    text.take i ++
      expandRepl (text.take i) ((text.drop i).take (j - i)) (text.drop j) repl ++
      text.drop j

/-- Characters that `new RegExp` does not treat as plain literals (the model
also keeps `]` out of the literal set; the parser covers only the fragment of
regular-expression syntax this program can generate). -/
def regexMeta : List Char := ['\\', '[', ']', '(', ')', '{', '}', '.', '*', '+', '?', '^', '$', '|']

/-- A character the pattern parser accepts as a literal atom. -/
def isLitChar (c : Char) : Bool := !(regexMeta.contains c)

/-- Predicate for a literal-character atom. -/
def eqC (c : Char) : Char → Bool := fun x => x == c

/-- The class `[\s\S]` from the generated pattern: any character. -/
def clsAny : Char → Bool := fun c => jsWs c || !jsWs c

/-- The `.` atom: any character except a line terminator. -/
def dotP (c : Char) : Bool :=
  !(c == '\n' || c == '\r' || c == ' ' || c == ' ')

/-- Single-character escapes `\x` understood by the parser fragment. -/
def escAtom : Char → Option (Char → Bool)
  | 's' => some jsWs
  | 'S' => some (fun c => !jsWs c)
  | 'd' => some Char.isDigit
  | 'D' => some (fun c => !c.isDigit)
  | 'n' => some (eqC '\n')
  | 'r' => some (eqC '\r')
  | 't' => some (eqC '\t')
  | 'f' => some (eqC '\x0c')
  | 'v' => some (eqC '\x0b')
  | c => if regexMeta.contains c || c == '/' || c == '-' then some (eqC c) else none

/-- Parser for the regular-expression fragment generated by the scripts:
literal characters, the escapes of `escAtom`, `.`, the class `[\s\S]`, and
the quantifiers `*`, `*?`, `+`, `+?`, `?`.  Anything outside the fragment
yields `none`, which the controller treats as a failed `new RegExp`
construction. -/
def parseItems : List Char → Option (List RItem)
  | [] => some []
  | '[' :: '\\' :: 's' :: '\\' :: 'S' :: ']' :: rest =>
    match rest with
    | '*' :: '?' :: r => (parseItems r).map (fun l => .starL clsAny :: l)
    | '*' :: r => (parseItems r).map (fun l => .starG clsAny :: l)
    | '+' :: '?' :: r => (parseItems r).map (fun l => .once clsAny :: .starL clsAny :: l)
    | '+' :: r => (parseItems r).map (fun l => .once clsAny :: .starG clsAny :: l)
    | '?' :: r => (parseItems r).map (fun l => .optG clsAny :: l)
    | r => (parseItems r).map (fun l => .once clsAny :: l)
  | '[' :: _ => none
  | '\\' :: c :: rest =>
    match escAtom c with
    | none => none
    | some p =>
      match rest with
      | '*' :: '?' :: r => (parseItems r).map (fun l => .starL p :: l)
      | '*' :: r => (parseItems r).map (fun l => .starG p :: l)
      | '+' :: '?' :: r => (parseItems r).map (fun l => .once p :: .starL p :: l)
      | '+' :: r => (parseItems r).map (fun l => .once p :: .starG p :: l)
      | '?' :: r => (parseItems r).map (fun l => .optG p :: l)
      | r => (parseItems r).map (fun l => .once p :: l)
  | '\\' :: [] => none
  | '.' :: rest =>
    match rest with
    | '*' :: '?' :: r => (parseItems r).map (fun l => .starL dotP :: l)
    | '*' :: r => (parseItems r).map (fun l => .starG dotP :: l)
    | '+' :: '?' :: r => (parseItems r).map (fun l => .once dotP :: .starL dotP :: l)
    | '+' :: r => (parseItems r).map (fun l => .once dotP :: .starG dotP :: l)
    | '?' :: r => (parseItems r).map (fun l => .optG dotP :: l)
    | r => (parseItems r).map (fun l => .once dotP :: l)
  | c :: rest =>
    if isLitChar c then
      match rest with
      | '*' :: '?' :: r => (parseItems r).map (fun l => .starL (eqC c) :: l)
      | '*' :: r => (parseItems r).map (fun l => .starG (eqC c) :: l)
      | '+' :: '?' :: r => (parseItems r).map (fun l => .once (eqC c) :: .starL (eqC c) :: l)
      | '+' :: r => (parseItems r).map (fun l => .once (eqC c) :: .starG (eqC c) :: l)
      | '?' :: r => (parseItems r).map (fun l => .optG (eqC c) :: l)
      | r => (parseItems r).map (fun l => .once (eqC c) :: l)
    else none

/-- Process-wide configuration (`CONFIG` in the source, identical in the
three variants): the two marker strings and the missing-marker policy. -/
structure Config where
  startMarker : List Char
  endMarker : List Char
  failOnMissing : Bool

/-- The characters `\s*[\s\S]*?\s*` spliced between the two markers when the
pattern string is built in `main`
(`new RegExp` sees `START\s*[\s\S]*?\s*END`). -/
def midChars : List Char :=
  ['\\', 's', '*', '[', '\\', 's', '\\', 'S', ']', '*', '?', '\\', 's', '*']

/-- Compilation of the pattern string built in `main`:
`new RegExp(START_MARKER + "\s*[\s\S]*?\s*" + END_MARKER)`. -/
def buildPattern (cfg : Config) : Option (List RItem) :=
  parseItems (cfg.startMarker ++ midChars ++ cfg.endMarker)

/-- A run of unquantified literal atoms, one per character. -/
def litSeq (L : List Char) : List RItem := L.map (fun c => .once (eqC c))

/-- The compiled form the generated pattern takes when both markers consist
of plain literal characters. -/
def canonicalItems (S E : List Char) : List RItem :=
  litSeq S ++ [.starG jsWs, .starL clsAny, .starG jsWs] ++ litSeq E

/-- The two newline characters around the joined names in the replacement. -/
def nl2 : List Char := ['\n', '\n']

/-- `updateFileContent` (lines 25–37 of the first variant; the other variants
differ only in logging).  File reading is done by the caller of this model;
the function receives the file's text.  `indexOf` of both markers guards the
substitution: when a marker is absent or the first start occurrence lies
after the first end occurrence, the result is a thrown `Error` under
`failOnMissing` and the `null` sentinel otherwise; else the result is
`fileContent.replace(pattern, replacement)`. -/
def updateFileContent (cfg : Config) (pat : List RItem) (repl : List Char)
    (filePath : String) (fileContent : List Char) : Except String (Option (List Char)) :=
  match idxOf? cfg.startMarker fileContent, idxOf? cfg.endMarker fileContent with
  | some si, some ei =>
    if si > ei then
      if cfg.failOnMissing then
        .error ("Markers are missing or misordered in " ++ filePath)
      else .ok none
    else .ok (some (jsReplaceOnce pat repl fileContent))
  | _, _ =>
    if cfg.failOnMissing then
      .error ("Markers are missing or misordered in " ++ filePath)
    else .ok none

/-! ## Roster data model and name extraction -/

/-- A roster member; only the `name` field is consumed (`m.name`). -/
structure Member where
  name : String
deriving DecidableEq

/-- A tier as fetched: `members` is `none` when the JSON field is not an
array (`!Array.isArray(tier.members)`). -/
structure RawTier where
  members : Option (List Member)
deriving DecidableEq

/-- The fetched document: `tiers` is `none` when `data?.tiers` is not an
array. -/
structure RawDoc where
  tiers : Option (List RawTier)
deriving DecidableEq

/-- `Array.prototype.join(sep)` on a list of strings. -/
def joinSep (sep : String) : List String → String
  | [] => ""
  | [x] => x
  | x :: xs => x ++ sep ++ joinSep sep xs

/-- Lines 111–112 of the first variant (identical in the others):
`data.tiers[data.tiers.length - 1].members.map(m => m.name).join(" · ")`.
`none` models the JavaScript `TypeError` raised when `tiers` is empty
(`tiers[-1]` is `undefined`) or when the last tier's `members` is absent. -/
def computeNames (tiers : List RawTier) : Option String :=
  match tiers.get? (tiers.length - 1) with
  | none => none
  | some t =>
    match t.members with
    | none => none
    | some ms => some (joinSep " · " (ms.map (fun m => m.name)))

/-! ## Effects, environment and the synchronization controller -/

/-- Effects accumulated during the `try` body of a run. -/
structure Acc where
  writes : List (String × List Char) := []
  errorsLogged : List String := []
  warnings : List String := []
  infos : List String := []
  commitAttempted : Bool := false
  pushed : Bool := false
  prCreated : Bool := false
deriving DecidableEq

/-- Outcome of one full run: accumulated effects, the `core.setFailed`
message if any, and an unhandled error escaping the `catch` block if any. -/
structure RunResult where
  eff : Acc
  failedWith : Option String
  uncaughtError : Option String
deriving DecidableEq

/-- Oracles for the pull-request gateway: the list call (number of open pull
requests whose head is the working branch), the create call, and the
enable-auto-merge GraphQL call. -/
structure PrEnv where
  listPRs : Except String Nat
  createPR : Except String Unit
  autoMerge : Except String Unit

/-- The external world of one run: parsed `files-to-update` (`none` when the
configured value is not a sequence), the `git-email` input, the fetched
roster (`.error` for transport failures and non-success statuses), file
reads, subprocess execution keyed by the exact command line, and the
pull-request gateway. -/
structure Env where
  filesToUpdate : Option (List String)
  gitEmailInput : Option String
  fetched : Except String RawDoc
  readFile : String → Except String (List Char)
  exec : String → Except String String
  prs : PrEnv

/-- `String.prototype.trim`: strip the JavaScript whitespace set from both
ends (the `porcelain.trim()` check performed by the second variant). -/
def jsTrim (s : String) : String :=
  String.mk (((s.data.dropWhile jsWs).reverse.dropWhile jsWs).reverse)

/-- The fixed working branch (`CONFIG.BRANCH_NAME`). -/
def branchName : String := "update/patrons"

/-- The empty effect accumulator at the start of a run. -/
def acc0 : Acc := {}

/-- One iteration of the target-file loop (lines 119–130 of the first
variant): read, substitute, conditionally write.  Any thrown error (read
failure or `MarkerError`) is caught here, logged with `core.error`, and the
loop continues — the error does not escape.  A write happens exactly when
the substitution result is truthy (non-`null` and non-empty). -/
def processOne (cfg : Config) (pat : List RItem) (repl : List Char)
    (readFile : String → Except String (List Char)) (path : String) (a : Acc) : Acc :=
  match readFile path with
  | .error e =>
    { a with errorsLogged := a.errorsLogged ++ ["Failed to process " ++ path ++ ": " ++ e] }
  | .ok content =>
    match updateFileContent cfg pat repl path content with
    | .error e =>
      { a with errorsLogged := a.errorsLogged ++ ["Failed to process " ++ path ++ ": " ++ e] }
    | .ok none => a
    | .ok (some newText) =>
      if newText.isEmpty then a
      else
        { a with writes := a.writes ++ [(path, newText)],
                 infos := a.infos ++ ["Updated " ++ path ++ " with supporter names."] }

/-- The sequential target-file loop.  The in-memory `changesMade` flag of the
source corresponds to `writes` being non-empty, since the flag is set exactly
when a write is performed. -/
def processFiles (cfg : Config) (pat : List RItem) (repl : List Char)
    (readFile : String → Except String (List Char)) : List String → Acc → Acc
  | [], a => a
  | f :: fs, a => processFiles cfg pat repl readFile fs (processOne cfg pat repl readFile f a)

/-- `createOrUpdatePR` of the first variant (lines 44–85; the second variant
has the same control structure with extra debug logging): list open pull
requests for the branch; when none exists create one, then attempt to enable
auto-merge inside its own `try`/`catch` whose `catch` only logs a warning. -/
def createOrUpdatePR1 (p : PrEnv) (a : Acc) : Except String Acc :=
  match p.listPRs with
  | .error e => .error e
  | .ok n =>
    if n == 0 then
      match p.createPR with
      | .error e => .error e
      | .ok _ =>
        match p.autoMerge with
        | .ok _ =>
          .ok { a with prCreated := true,
                       infos := a.infos ++ ["Auto-merge enabled for PR", "Pull request created"] }
        | .error m =>
          .ok { a with prCreated := true,
                       warnings := a.warnings ++ ["Failed to enable auto-merge: " ++ m],
                       infos := a.infos ++ ["Pull request created"] }
    else .ok { a with infos := a.infos ++ ["Pull request already exists."] }

/-- `createOrUpdatePR` of the third variant: same reconciliation but without
the auto-merge step. -/
def createOrUpdatePR3 (p : PrEnv) (a : Acc) : Except String Acc :=
  match p.listPRs with
  | .error e => .error e
  | .ok n =>
    if n == 0 then
      match p.createPR with
      | .error e => .error e
      | .ok _ =>
        .ok { a with prCreated := true, infos := a.infos ++ ["Pull request created"] }
    else .ok { a with infos := a.infos ++ ["Pull request already exists."] }

/-- The commit/push/pull-request phase of the first variant (lines 132–145),
entered only when `changesMade` is set: configure git, `git add .`, commit,
force-push, reconcile the pull request.  Every subprocess failure throws to
the top-level `catch`. -/
def gitPhase1 (env : Env) (a : Acc) : Except (String × Acc) Acc :=
  match env.exec "git config user.name \"GitHub Actions Bot\"" with
  | .error e => .error (e, a)
  | .ok _ =>
    match env.exec ("git config user.email \"" ++
        env.gitEmailInput.getD "actions@github.com" ++ "\"") with
    | .error e => .error (e, a)
    | .ok _ =>
      match env.exec "git add ." with
      | .error e => .error (e, a)
      | .ok _ =>
        match env.exec "git commit -m \"docs: updated patrons list\"" with
        | .error e => .error (e, { a with commitAttempted := true })
        | .ok _ =>
          match env.exec ("git push -f origin " ++ branchName) with
          | .error e => .error (e, { a with commitAttempted := true })
          | .ok _ =>
            match createOrUpdatePR1 env.prs
                { a with commitAttempted := true, pushed := true } with
            | .error e => .error (e, { a with commitAttempted := true, pushed := true })
            | .ok a3 => .ok a3

/-- The commit/push/pull-request phase of the second variant (lines
326–373): after staging, `git status --porcelain` is consulted and the run
returns successfully without a commit when the staging status reports no
pending changes; on commit failure a staged-diff diagnostic is attempted
before rethrowing. -/
def gitPhase2 (env : Env) (a : Acc) : Except (String × Acc) Acc :=
  match env.exec "git config user.name \"GitHub Actions Bot\"" with
  | .error e => .error (e, a)
  | .ok _ =>
    match env.exec ("git config user.email \"" ++
        env.gitEmailInput.getD "actions@github.com" ++ "\"") with
    | .error e => .error (e, a)
    | .ok _ =>
      match env.exec "git status" with
      | .error e => .error (e, a)
      | .ok _ =>
        match env.exec "git add ." with
        | .error e => .error (e, a)
        | .ok _ =>
          match env.exec "git status --porcelain" with
          | .error e => .error (e, a)
          | .ok porcelain =>
            if jsTrim porcelain = "" then
              .ok { a with infos :=
                a.infos ++ ["No changes to commit, skipping commit and push operations"] }
            else
              match env.exec "git commit -m \"docs: updated patrons list\"" with
              | .error e =>
                match env.exec "git diff --staged --name-only" with
                | .ok s =>
                  if jsTrim s = "" then
                    .error (e,
                      { a with
                        commitAttempted := true
                        infos := a.infos ++ ["Changes detected"]
                        errorsLogged := a.errorsLogged ++ ["Git commit failed"]
                        warnings := a.warnings ++
                          ["No changes to commit - this might be why the commit failed"] })
                  else
                    .error (e,
                      { a with
                        commitAttempted := true
                        infos := a.infos ++ ["Changes detected"]
                        errorsLogged := a.errorsLogged ++ ["Git commit failed"] })
                | .error _ =>
                  .error (e,
                    { a with
                      commitAttempted := true
                      infos := a.infos ++ ["Changes detected"]
                      errorsLogged := a.errorsLogged ++ ["Git commit failed"]
                      warnings := a.warnings ++
                        ["No changes to commit - this might be why the commit failed"] })
              | .ok _ =>
                match env.exec ("git push -f origin " ++ branchName) with
                | .error e =>
                  .error (e,
                    { a with
                      commitAttempted := true
                      infos := a.infos ++ ["Changes detected"] })
                | .ok _ =>
                  match createOrUpdatePR1 env.prs
                      { a with
                        commitAttempted := true
                        pushed := true
                        infos := a.infos ++ ["Changes detected"] } with
                  | .error e =>
                    .error (e,
                      { a with
                        commitAttempted := true
                        pushed := true
                        infos := a.infos ++ ["Changes detected"] })
                  | .ok a3 => .ok a3

/-- The commit/push/pull-request phase of the third variant: like the first
but the push is not forced and the pull-request step has no auto-merge. -/
def gitPhase3 (env : Env) (a : Acc) : Except (String × Acc) Acc :=
  let email := env.gitEmailInput.getD "actions@github.com"
  match env.exec "git config user.name \"GitHub Actions Bot\"" with
  | .error e => .error (e, a)
  | .ok _ =>
    match env.exec ("git config user.email \"" ++ email ++ "\"") with
    | .error e => .error (e, a)
    | .ok _ =>
      match env.exec "git add ." with
      | .error e => .error (e, a)
      | .ok _ =>
        let a1 := { a with commitAttempted := true }
        match env.exec "git commit -m \"docs: updated patrons list\"" with
        | .error e => .error (e, a1)
        | .ok _ =>
          match env.exec ("git push origin " ++ branchName) with
          | .error e => .error (e, a1)
          | .ok _ =>
            let a2 := { a1 with pushed := true }
            match createOrUpdatePR3 env.prs a2 with
            | .error e => .error (e, a2)
            | .ok a3 => .ok a3

/-- The `try` body of `main` in the first variant (lines 88–148).  An
`.error (msg, acc)` value is a thrown error reaching the top-level `catch`
with the effects accumulated so far. -/
def mainTry1 (cfg : Config) (env : Env) : Except (String × Acc) Acc :=
  match env.filesToUpdate with
  | none => .error ("No files specified in 'files-to-update'.", acc0)
  | some files =>
    if files.isEmpty then .error ("No files specified in 'files-to-update'.", acc0)
    else
      match env.fetched with
      | .error e => .error (e, acc0)
      | .ok data =>
        match data.tiers with
        | none => .error ("Supporter tiers are missing or malformed.", acc0)
        | some tiers =>
          if tiers.isEmpty then
            .ok { acc0 with warnings := ["No supporters found in the supporter data."] }
          else if tiers.any (fun t => t.members.isNone) then
            .error ("Supporter data is missing or malformed.", acc0)
          else
            match computeNames tiers with
            | none =>
              .error ("Cannot read properties of undefined (reading 'members')", acc0)
            | some names =>
              match buildPattern cfg with
              | none => .error ("Invalid regular expression", acc0)
              | some pat =>
                match env.exec ("git checkout -B " ++ branchName) with
                | .error e => .error (e, acc0)
                | .ok _ =>
                  match env.exec "git reset --hard origin/main" with
                  | .error e => .error (e, acc0)
                  | .ok _ =>
                    if (processFiles cfg pat
                        (cfg.startMarker ++ nl2 ++ names.data ++ nl2 ++ cfg.endMarker)
                        env.readFile files acc0).writes.isEmpty then
                      .ok { processFiles cfg pat
                          (cfg.startMarker ++ nl2 ++ names.data ++ nl2 ++ cfg.endMarker)
                          env.readFile files acc0 with
                        infos := (processFiles cfg pat
                          (cfg.startMarker ++ nl2 ++ names.data ++ nl2 ++ cfg.endMarker)
                          env.readFile files acc0).infos ++
                          ["No changes detected. Skipping pull request creation."] }
                    else gitPhase1 env (processFiles cfg pat
                      (cfg.startMarker ++ nl2 ++ names.data ++ nl2 ++ cfg.endMarker)
                      env.readFile files acc0)

/-- Identifiers in scope inside the `catch` block of the first variant's
`main` (lines 149–153): the module-level bindings, ambient globals the
script uses, and the `catch` parameter.  The `const`/`let` bindings of the
`try` block (`filesToUpdate`, `data`, `names`, `changesMade`, …) are
block-scoped to the `try` block and therefore not visible here. -/
def main1ScopeVars : List String :=
  ["fs", "exec", "promisify", "core", "Octokit", "yaml", "execAsync", "CONFIG",
   "fetchSupporterData", "updateFileContent", "setupGitBranch", "createOrUpdatePR",
   "main", "error", "fetch", "process", "JSON", "Array", "RegExp"]

/-- The `catch` block of the first variant: `core.setFailed(error.message)`
followed by `git checkout ${originalBranch}`.  Evaluating the template
literal resolves the identifier `originalBranch` first; since it is not in
scope, a `ReferenceError` is raised inside the `catch` block and — `main()`
being called without a rejection handler — escapes unhandled. -/
def main1Catch (msg : String) (a : Acc) : RunResult :=
  if main1ScopeVars.contains "originalBranch" then
    { eff := a, failedWith := some msg, uncaughtError := none }
  else
    { eff := a, failedWith := some msg,
      uncaughtError := some "originalBranch is not defined" }

/-- `main` of the first variant. -/
def main1 (cfg : Config) (env : Env) : RunResult :=
  match mainTry1 cfg env with
  | .ok a => { eff := a, failedWith := none, uncaughtError := none }
  | .error (msg, a) => main1Catch msg a

/-- The `try` body of `main` in the second variant (lines 276–378): same
validation pipeline; branch setup is `git checkout -B` only (a failure is
reported via `setFailed` inside `setupGitBranch` and rethrown); the git phase
consults `git status --porcelain`. -/
def mainTry2 (cfg : Config) (env : Env) : Except (String × Acc) Acc :=
  match env.filesToUpdate with
  | none => .error ("No files specified in 'files-to-update'.", acc0)
  | some files =>
    if files.isEmpty then .error ("No files specified in 'files-to-update'.", acc0)
    else
      match env.fetched with
      | .error e => .error (e, acc0)
      | .ok data =>
        match data.tiers with
        | none => .error ("Supporter tiers are missing or malformed.", acc0)
        | some tiers =>
          if tiers.isEmpty then
            .ok { acc0 with warnings := ["No supporters found in the supporter data."] }
          else if tiers.any (fun t => t.members.isNone) then
            .error ("Supporter data is missing or malformed.", acc0)
          else
            match computeNames tiers with
            | none =>
              .error ("Cannot read properties of undefined (reading 'members')", acc0)
            | some names =>
              match buildPattern cfg with
              | none => .error ("Invalid regular expression", acc0)
              | some pat =>
                match env.exec ("git checkout -B " ++ branchName) with
                | .error e =>
                  .error (e, { acc0 with errorsLogged :=
                    acc0.errorsLogged ++ ["Failed to setup git branch: " ++ e] })
                | .ok _ =>
                  if (processFiles cfg pat
                      (cfg.startMarker ++ nl2 ++ names.data ++ nl2 ++ cfg.endMarker)
                      env.readFile files acc0).writes.isEmpty then
                    .ok { processFiles cfg pat
                        (cfg.startMarker ++ nl2 ++ names.data ++ nl2 ++ cfg.endMarker)
                        env.readFile files acc0 with
                      infos := (processFiles cfg pat
                        (cfg.startMarker ++ nl2 ++ names.data ++ nl2 ++ cfg.endMarker)
                        env.readFile files acc0).infos ++
                        ["No changes detected. Skipping pull request creation."] }
                  else gitPhase2 env (processFiles cfg pat
                    (cfg.startMarker ++ nl2 ++ names.data ++ nl2 ++ cfg.endMarker)
                    env.readFile files acc0)

/-- `main` of the second variant.  Its `catch` block only logs and calls
`core.setFailed`; it references no undefined variables. -/
def main2 (cfg : Config) (env : Env) : RunResult :=
  match mainTry2 cfg env with
  | .ok a => { eff := a, failedWith := none, uncaughtError := none }
  | .error (msg, a) => { eff := a, failedWith := some msg, uncaughtError := none }

/-- `setupGitBranch` of the third variant: reuse the branch when it exists
(`rev-parse`/`checkout`/`pull`), otherwise — or when any of those three
commands fails — fall back to `git checkout -b`. -/
def setupGitBranch3 (exec : String → Except String String) : Except String Unit :=
  let fallback :=
    match exec ("git checkout -b " ++ branchName) with
    | .ok _ => Except.ok ()
    | .error e => Except.error e
  match exec ("git rev-parse --verify " ++ branchName) with
  | .error _ => fallback
  | .ok _ =>
    match exec ("git checkout " ++ branchName) with
    | .error _ => fallback
    | .ok _ =>
      match exec ("git pull origin " ++ branchName) with
      | .error _ => fallback
      | .ok _ => .ok ()

/-- The `try` body of `main` in the third variant (lines 457–504): combined
validation with **no** empty-`tiers` guard, so an empty roster reaches
`tiers[tiers.length - 1].members` and raises a `TypeError`. -/
def mainTry3 (cfg : Config) (env : Env) : Except (String × Acc) Acc :=
  let a0 : Acc := {}
  match env.filesToUpdate with
  | none => .error ("No files specified in 'files-to-update'.", a0)
  | some files =>
    if files.isEmpty then .error ("No files specified in 'files-to-update'.", a0)
    else
      match env.fetched with
      | .error e => .error (e, a0)
      | .ok data =>
        match data.tiers with
        | none => .error ("Supporter data is missing or malformed.", a0)
        | some tiers =>
          if tiers.any (fun t => t.members.isNone) then
            .error ("Supporter data is missing or malformed.", a0)
          else
            match computeNames tiers with
            | none =>
              .error ("Cannot read properties of undefined (reading 'members')", a0)
            | some names =>
              let repl := cfg.startMarker ++ nl2 ++ names.data ++ nl2 ++ cfg.endMarker
              match buildPattern cfg with
              | none => .error ("Invalid regular expression", a0)
              | some pat =>
                match setupGitBranch3 env.exec with
                | .error e => .error (e, a0)
                | .ok _ =>
                  let a1 := processFiles cfg pat repl env.readFile files a0
                  if a1.writes.isEmpty then
                    .ok { a1 with infos := a1.infos ++
                      ["No changes detected. Skipping pull request creation."] }
                  else gitPhase3 env a1

/-- `main` of the third variant; its `catch` only calls `core.setFailed`. -/
def main3 (cfg : Config) (env : Env) : RunResult :=
  match mainTry3 cfg env with
  | .ok a => { eff := a, failedWith := none, uncaughtError := none }
  | .error (msg, a) => { eff := a, failedWith := some msg, uncaughtError := none }

/-! ## Configuration resolution -/

/-- The raw action inputs: `none` models an input the workflow did not
supply. -/
structure Inputs where
  startMarkerInput : Option String
  endMarkerInput : Option String
  failOnMissingMarkersInput : Option String

/-- Modelled from the spec: the action metadata declaring the inputs and
their defaults is not under `src/` (only the README documents it).  Per the
spec, `fail-on-missing-markers` defaults to `true` and the markers default to
the literal comment delimiters; the GitHub Actions runner resolves
`core.getInput` to the supplied value, or to the declared default when the
input is not supplied. -/
def getInputD (supplied : Option String) (dflt : String) : String :=
  supplied.getD dflt

/-- Construction of `CONFIG` (lines 11–17): marker strings pass through
unchanged; `FAIL_ON_MISSING_MARKERS` is the strict string comparison
`core.getInput("fail-on-missing-markers") === "true"`. -/
def mkConfig (i : Inputs) : Config :=
  { startMarker := (getInputD i.startMarkerInput "<!-- marker:patrons-start -->").data
    endMarker := (getInputD i.endMarkerInput "<!-- marker:patrons-end -->").data
    failOnMissing := getInputD i.failOnMissingMarkersInput "true" == "true" }

/-- The effect accumulator carried by a controller outcome, whether the run
completed or threw. -/
def resultAcc : Except (String × Acc) Acc → Acc
  | .ok a => a
  | .error (_, a) => a

/-! ## Concrete fixtures used by instance theorems -/

/-- A pull-request gateway where every call succeeds and no pull request is
open yet. -/
def prOk : PrEnv := ⟨.ok 0, .ok (), .ok ()⟩

/-- A pull-request gateway whose enable-auto-merge call fails. -/
def prAmFail : PrEnv := ⟨.ok 0, .ok (), .error "Resource not accessible by integration"⟩

/-- A minimal marker configuration: start marker `A`, end marker `B`,
`fail-on-missing-markers` true. -/
def cfgAB : Config := ⟨['A'], ['B'], true⟩

/-- A configuration whose start marker `a+b` contains the regular-expression
metacharacter `+`. -/
def cfgPlus : Config := ⟨['a', '+', 'b'], ['E'], true⟩

/-- The items `new RegExp` effectively compiles for `cfgPlus`:
`a+b\s*[\s\S]*?\s*E` — one-or-more `a`, then `b`, not the literal text
`a+b`. -/
def patPlus : List RItem :=
  [.once (eqC 'a'), .starG (eqC 'a'), .once (eqC 'b'),
   .starG jsWs, .starL clsAny, .starG jsWs, .once (eqC 'E')]

/-- A roster document with one tier containing one member named `N`. -/
def docN : RawDoc := ⟨some [⟨some [⟨"N"⟩]⟩]⟩

/-- A run environment whose target file lacks both markers; everything else
succeeds. -/
def envMarkerMiss : Env :=
  { filesToUpdate := some ["README.md"]
    gitEmailInput := none
    fetched := .ok docN
    readFile := fun _ => .ok ['h', 'i']
    exec := fun _ => .ok ""
    prs := prOk }

/-- A run environment whose target file already holds exactly the canonical
substituted text, so the rewrite is byte-identical and staging produces no
pending changes. -/
def envIdem : Env :=
  { filesToUpdate := some ["README.md"]
    gitEmailInput := none
    fetched := .ok docN
    readFile := fun _ => .ok ['A', '\n', '\n', 'N', '\n', '\n', 'B']
    exec := fun _ => .ok ""
    prs := prOk }

/-- Subprocess oracle reporting a pending change from
`git status --porcelain` and succeeding on everything else. -/
def execPorcelain : String → Except String String :=
  fun c => if c = "git status --porcelain" then .ok " M README.md" else .ok ""

/-- A run environment whose target file genuinely changes, with a pending
change reported by the staging status. -/
def envChange : Env :=
  { filesToUpdate := some ["README.md"]
    gitEmailInput := none
    fetched := .ok docN
    readFile := fun _ => .ok ['x', 'A', 'y', 'B', 'z']
    exec := execPorcelain
    prs := prOk }

/-- A run environment fetching a roster whose `tiers` is the empty
sequence. -/
def envEmptyTiers : Env :=
  { filesToUpdate := some ["README.md"]
    gitEmailInput := none
    fetched := .ok ⟨some []⟩
    readFile := fun _ => .ok []
    exec := fun _ => .ok ""
    prs := prOk }

/-- A run environment with no configured target files, driving the run into
the top-level catch block. -/
def envNoFiles : Env :=
  { filesToUpdate := none
    gitEmailInput := none
    fetched := .error "HTTP 500"
    readFile := fun _ => .error "ENOENT"
    exec := fun _ => .ok ""
    prs := prOk }

/-- A run environment where everything succeeds except the
enable-auto-merge call. -/
def envAmFail : Env :=
  { filesToUpdate := some ["README.md"]
    gitEmailInput := none
    fetched := .ok docN
    readFile := fun _ => .ok ['x', 'A', 'y', 'B', 'z']
    exec := fun _ => .ok ""
    prs := prAmFail }

/-! ## Engine lemmas -/

theorem litSeq_cons (c : Char) (L : List Char) :
    litSeq (c :: L) = .once (eqC c) :: litSeq L := rfl

theorem clsAny_true (c : Char) : clsAny c = true := by
  simp [clsAny]

theorem matchSeq_litSeq_append (L : List Char) (rest : List RItem) :
    ∀ u, matchSeq (litSeq L ++ rest) u =
      if L.isPrefixOf u then matchSeq rest (u.drop L.length) else none := by
  induction L with
  | nil => intro u; simp [litSeq, List.isPrefixOf]
  | cons c L ih =>
    intro u
    cases u with
    | nil => simp [litSeq_cons, matchSeq, List.isPrefixOf]
    | cons d u' =>
      by_cases h : d = c
      · subst h
        have e1 : matchSeq (litSeq (d :: L) ++ rest) (d :: u') =
            matchSeq (litSeq L ++ rest) u' := by
          simp [litSeq, matchSeq, eqC]
        have e2 : (d :: L).isPrefixOf (d :: u') = L.isPrefixOf u' := by
          simp [List.isPrefixOf]
        rw [e1, ih u', e2]
        cases hp : L.isPrefixOf u' <;> simp [hp, List.drop_succ_cons]
      · have e1 : matchSeq (litSeq (c :: L) ++ rest) (d :: u') = none := by
          simp [litSeq, matchSeq, eqC, h]
        have e2 : (c :: L).isPrefixOf (d :: u') = false := by
          simp [List.isPrefixOf]
          intro hcd
          exact absurd hcd.symm h
        rw [e1, e2]
        simp

theorem matchSeq_litSeq (L : List Char) (u : List Char) :
    matchSeq (litSeq L) u =
      if L.isPrefixOf u then some (u.drop L.length) else none := by
  have h := matchSeq_litSeq_append L [] u
  simpa [matchSeq] using h

theorem isPrefixOf_append_self (L x : List Char) : L.isPrefixOf (L ++ x) = true :=
  List.isPrefixOf_iff_prefix.mpr (List.prefix_append L x)

theorem idxOf?_spec (pat : List Char) :
    ∀ t i, idxOf? pat t = some i →
      pat.isPrefixOf (t.drop i) = true ∧ ∀ k < i, pat.isPrefixOf (t.drop k) = false := by
  intro t
  induction t with
  | nil =>
    intro i h
    by_cases hp : pat.isPrefixOf [] = true
    · simp [idxOf?, hp] at h
      subst h
      exact ⟨hp, by omega⟩
    · simp [idxOf?, Bool.eq_false_iff.mpr hp] at h
  | cons c t' ih =>
    intro i h
    by_cases hp : pat.isPrefixOf (c :: t') = true
    · simp [idxOf?, hp] at h
      subst h
      exact ⟨hp, by omega⟩
    · simp [idxOf?, Bool.eq_false_iff.mpr hp] at h
      obtain ⟨i', hi', rfl⟩ := h
      obtain ⟨hpre, hmin⟩ := ih i' hi'
      refine ⟨hpre, ?_⟩
      intro k hk
      cases k with
      | zero => exact Bool.eq_false_iff.mpr hp
      | succ k' => exact hmin k' (by omega)

theorem idxOf?_min_of_prefix (pat : List Char) :
    ∀ t n, pat.isPrefixOf (t.drop n) = true →
      ∃ i, idxOf? pat t = some i ∧ i ≤ n := by
  intro t
  induction t with
  | nil =>
    intro n h
    simp only [List.drop_nil] at h
    exact ⟨0, by simp [idxOf?, h], Nat.zero_le n⟩
  | cons c t' ih =>
    intro n h
    by_cases hp : pat.isPrefixOf (c :: t') = true
    · exact ⟨0, by simp [idxOf?, hp], Nat.zero_le n⟩
    · cases n with
      | zero => simp only [List.drop_zero] at h; exact absurd h hp
      | succ n' =>
        simp only [List.drop_succ_cons] at h
        obtain ⟨i', hi', hle⟩ := ih n' h
        exact ⟨i' + 1, by simp [idxOf?, Bool.eq_false_iff.mpr hp, hi'], by omega⟩

theorem idxOf?_eq_of (pat t : List Char) (n : Nat)
    (hpre : pat.isPrefixOf (t.drop n) = true)
    (hmin : ∀ k < n, pat.isPrefixOf (t.drop k) = false) :
    idxOf? pat t = some n := by
  obtain ⟨i, hi, hle⟩ := idxOf?_min_of_prefix pat t n hpre
  obtain ⟨hp, _⟩ := idxOf?_spec pat t i hi
  rcases Nat.lt_or_ge i n with hlt | hge
  · rw [hmin i hlt] at hp; cases hp
  · have : i = n := by omega
    subst this; exact hi

theorem wsRun_append_le (r : List Char) (c : Char) (hc : jsWs c = false) :
    ∀ m : List Char, wsRun (m ++ c :: r) ≤ m.length := by
  intro m
  induction m with
  | nil => simp [wsRun, hc]
  | cons d m' ih =>
    by_cases hd : jsWs d = true
    · simp [wsRun, hd]; omega
    · simp [wsRun, Bool.eq_false_iff.mpr hd]

theorem expandRepl_no_dollar (b mm aft : List Char) :
    ∀ repl, (∀ c ∈ repl, c ≠ '$') → expandRepl b mm aft repl = repl := by
  intro repl
  induction repl with
  | nil => intro _; rfl
  | cons c r ih =>
    intro h
    have hc : ¬ c = '$' := h c (List.mem_cons_self c r)
    have e : expandRepl b mm aft (c :: r) = c :: expandRepl b mm aft r := by
      rw [expandRepl.eq_def]
      simp [hc]
    rw [e, ih (fun d hd => h d (List.mem_cons_of_mem c hd))]

theorem matchSeq_once_nil (p : Char → Bool) (is : List RItem) :
    matchSeq (.once p :: is) [] = none := rfl

theorem matchSeq_once_cons (p : Char → Bool) (is : List RItem) (c : Char) (t : List Char) :
    matchSeq (.once p :: is) (c :: t) = if p c then matchSeq is t else none := rfl

theorem matchSeq_starG_nil (p : Char → Bool) (is : List RItem) :
    matchSeq (.starG p :: is) [] = matchSeq is [] := rfl

theorem matchSeq_starG_cons (p : Char → Bool) (is : List RItem) (c : Char) (t : List Char) :
    matchSeq (.starG p :: is) (c :: t) =
      if p c then
        match matchSeq (.starG p :: is) t with
        | some r => some r
        | none => matchSeq is (c :: t)
      else matchSeq is (c :: t) := rfl

theorem matchSeq_starL_nil (p : Char → Bool) (is : List RItem) :
    matchSeq (.starL p :: is) [] = matchSeq is [] := rfl

theorem matchSeq_starL_cons (p : Char → Bool) (is : List RItem) (c : Char) (t : List Char) :
    matchSeq (.starL p :: is) (c :: t) =
      match matchSeq is (c :: t) with
      | some r => some r
      | none => if p c then matchSeq (.starL p :: is) t else none := rfl

theorem matchSeq_starG_ws_lit (e₀ : Char) (E' : List Char) (hws : jsWs e₀ = false) :
    ∀ u, matchSeq (.starG jsWs :: litSeq (e₀ :: E')) u =
      matchSeq (litSeq (e₀ :: E')) (u.drop (wsRun u)) := by
  intro u
  induction u with
  | nil => rw [matchSeq_starG_nil]; simp [wsRun]
  | cons c u' ih =>
    rw [matchSeq_starG_cons]
    by_cases hc : jsWs c = true
    · rw [if_pos hc, ih]
      have hwr : wsRun (c :: u') = wsRun u' + 1 := by simp [wsRun, hc]
      rw [hwr, List.drop_succ_cons]
      cases hr : matchSeq (litSeq (e₀ :: E')) (u'.drop (wsRun u')) with
      | some r => rfl
      | none =>
        show matchSeq (litSeq (e₀ :: E')) (c :: u') = none
        rw [matchSeq_litSeq]
        have hne : (e₀ :: E').isPrefixOf (c :: u') = false := by
          by_cases he : e₀ = c
          · rw [he, hc] at hws; cases hws
          · simp [List.isPrefixOf, he]
        rw [hne]
        rfl
    · rw [if_neg hc]
      have hc' : jsWs c = false := Bool.eq_false_iff.mpr hc
      have hwr : wsRun (c :: u') = 0 := by simp [wsRun, hc']
      rw [hwr, List.drop_zero]


theorem matchSeq_lazy_phase (e₀ : Char) (E' q : List Char) (hws : jsWs e₀ = false) :
    ∀ m, (∀ k < m.length,
        (e₀ :: E').isPrefixOf ((m ++ (e₀ :: (E' ++ q))).drop k) = false) →
      matchSeq (.starL clsAny :: .starG jsWs :: litSeq (e₀ :: E'))
        (m ++ (e₀ :: (E' ++ q))) = some q := by
  have hdropE : (e₀ :: (E' ++ q)).drop (e₀ :: E').length = q := by
    rw [← List.cons_append]
    exact List.drop_left (e₀ :: E') q
  have hpreE : (e₀ :: E').isPrefixOf (e₀ :: (E' ++ q)) = true := by
    rw [← List.cons_append]
    exact isPrefixOf_append_self _ _
  have base : matchSeq (.starG jsWs :: litSeq (e₀ :: E')) (e₀ :: (E' ++ q)) = some q := by
    rw [matchSeq_starG_ws_lit e₀ E' hws]
    have h0 : wsRun (e₀ :: (E' ++ q)) = 0 := by simp [wsRun, hws]
    rw [h0, List.drop_zero, matchSeq_litSeq, hpreE, if_pos rfl, hdropE]
  intro m
  induction m with
  | nil =>
    intro _
    rw [List.nil_append, matchSeq_starL_cons, base]
  | cons c m' ih =>
    intro h
    have hrec : ∀ k < m'.length,
        (e₀ :: E').isPrefixOf ((m' ++ (e₀ :: (E' ++ q))).drop k) = false := by
      intro k hk
      have := h (k + 1) (by simp; omega)
      rw [List.cons_append, List.drop_succ_cons] at this
      exact this
    rw [List.cons_append, matchSeq_starL_cons]
    rw [matchSeq_starG_ws_lit e₀ E' hws]
    by_cases hc : jsWs c = true
    · -- leading whitespace: the greedy whitespace star may already reach the marker
      have hw1 : wsRun (c :: (m' ++ (e₀ :: (E' ++ q)))) =
          wsRun (m' ++ (e₀ :: (E' ++ q))) + 1 := by simp [wsRun, hc]
      have hwle : wsRun (m' ++ (e₀ :: (E' ++ q))) ≤ m'.length :=
        wsRun_append_le (E' ++ q) e₀ hws m'
      rw [hw1, List.drop_succ_cons]
      by_cases hpre : (e₀ :: E').isPrefixOf
          ((m' ++ (e₀ :: (E' ++ q))).drop (wsRun (m' ++ (e₀ :: (E' ++ q))))) = true
      · -- the whitespace run ends exactly at the end marker
        have hwge : ¬ wsRun (m' ++ (e₀ :: (E' ++ q))) < m'.length := by
          intro hlt
          have hk := h (wsRun (m' ++ (e₀ :: (E' ++ q))) + 1) (by simp; omega)
          rw [List.cons_append, List.drop_succ_cons] at hk
          rw [hk] at hpre
          cases hpre
        have hweq : wsRun (m' ++ (e₀ :: (E' ++ q))) = m'.length := by omega
        rw [matchSeq_litSeq, hpre, if_pos rfl, hweq, List.drop_left, hdropE]
      · -- no marker within the whitespace run: the lazy star advances
        rw [matchSeq_litSeq, Bool.eq_false_iff.mpr hpre]
        simp only [Bool.false_eq_true, if_false]
        rw [clsAny_true, if_pos rfl]
        exact ih hrec
    · -- non-whitespace head: the tail phase fails here, the lazy star advances
      have hc' : jsWs c = false := Bool.eq_false_iff.mpr hc
      have hw0 : wsRun (c :: (m' ++ (e₀ :: (E' ++ q)))) = 0 := by simp [wsRun, hc']
      have hne : (e₀ :: E').isPrefixOf (c :: (m' ++ (e₀ :: (E' ++ q)))) = false := by
        have := h 0 (by simp)
        rw [List.cons_append, List.drop_zero] at this
        exact this
      rw [hw0, List.drop_zero, matchSeq_litSeq, hne]
      simp only [Bool.false_eq_true, if_false]
      rw [clsAny_true, if_pos rfl]
      exact ih hrec

theorem matchSeq_tail_phase (e₀ : Char) (E' q : List Char) (hws : jsWs e₀ = false) :
    ∀ m, (∀ k < m.length,
        (e₀ :: E').isPrefixOf ((m ++ (e₀ :: (E' ++ q))).drop k) = false) →
      matchSeq (.starG jsWs :: .starL clsAny :: .starG jsWs :: litSeq (e₀ :: E'))
        (m ++ (e₀ :: (E' ++ q))) = some q := by
  intro m
  induction m with
  | nil =>
    intro h
    rw [List.nil_append, matchSeq_starG_cons, if_neg (by rw [hws]; simp)]
    have := matchSeq_lazy_phase e₀ E' q hws [] (by simp)
    rw [List.nil_append] at this
    exact this
  | cons c m' ih =>
    intro h
    have hrec : ∀ k < m'.length,
        (e₀ :: E').isPrefixOf ((m' ++ (e₀ :: (E' ++ q))).drop k) = false := by
      intro k hk
      have := h (k + 1) (by simp; omega)
      rw [List.cons_append, List.drop_succ_cons] at this
      exact this
    rw [List.cons_append, matchSeq_starG_cons]
    by_cases hc : jsWs c = true
    · rw [if_pos hc, ih hrec]
    · rw [if_neg hc]
      have := matchSeq_lazy_phase e₀ E' q hws (c :: m') h
      rw [List.cons_append] at this
      exact this


theorem findFrom_nil (items : List RItem) (i : Nat) :
    findFrom items [] i =
      match matchSeq items [] with
      | some r => some (i, i + (0 - r.length))
      | none => none := rfl

theorem findFrom_cons (items : List RItem) (c : Char) (t' : List Char) (i : Nat) :
    findFrom items (c :: t') i =
      match matchSeq items (c :: t') with
      | some r => some (i, i + ((c :: t').length - r.length))
      | none => findFrom items t' (i + 1) := rfl

theorem findFrom_first (items : List RItem) (r : List Char) :
    ∀ n t i, (∀ j < n, matchSeq items (t.drop j) = none) →
      matchSeq items (t.drop n) = some r →
      findFrom items t i = some (i + n, i + n + ((t.drop n).length - r.length)) := by
  intro n
  induction n with
  | zero =>
    intro t i _ hsome
    rw [List.drop_zero] at hsome
    cases t with
    | nil => rw [findFrom_nil, hsome]; simp
    | cons c t' => rw [findFrom_cons, hsome]; simp
  | succ n ih =>
    intro t i hnone hsome
    have h0 : matchSeq items t = none := by
      have := hnone 0 (Nat.succ_pos n)
      rwa [List.drop_zero] at this
    cases t with
    | nil =>
      rw [List.drop_nil] at hsome
      rw [hsome] at h0
      cases h0
    | cons c t' =>
      rw [List.drop_succ_cons] at hsome
      have hnone' : ∀ j < n, matchSeq items (t'.drop j) = none := by
        intro j hj
        have := hnone (j + 1) (by omega)
        rwa [List.drop_succ_cons] at this
      rw [findFrom_cons, h0]
      show findFrom items t' (i + 1) = _
      rw [ih t' (i + 1) hnone' hsome]
      rw [List.drop_succ_cons]
      simp only [Option.some.injEq, Prod.mk.injEq]
      omega

theorem canonicalItems_eq (S E : List Char) :
    canonicalItems S E =
      litSeq S ++ (.starG jsWs :: .starL clsAny :: .starG jsWs :: litSeq E) := by
  simp [canonicalItems]

theorem findFrom_span (S : List Char) (e₀ : Char) (E' p m q : List Char)
    (hws : jsWs e₀ = false)
    (h1 : ∀ k < p.length,
      S.isPrefixOf ((p ++ (S ++ (m ++ (e₀ :: (E' ++ q))))).drop k) = false)
    (h2 : ∀ k < m.length,
      (e₀ :: E').isPrefixOf ((m ++ (e₀ :: (E' ++ q))).drop k) = false) :
    findFrom (canonicalItems S (e₀ :: E')) (p ++ (S ++ (m ++ (e₀ :: (E' ++ q))))) 0 =
      some (p.length, p.length + S.length + m.length + (e₀ :: E').length) := by
  have hnone : ∀ j < p.length,
      matchSeq (canonicalItems S (e₀ :: E'))
        ((p ++ (S ++ (m ++ (e₀ :: (E' ++ q))))).drop j) = none := by
    intro j hj
    rw [canonicalItems_eq, matchSeq_litSeq_append, h1 j hj]
    simp
  have hdropP : (p ++ (S ++ (m ++ (e₀ :: (E' ++ q))))).drop p.length =
      S ++ (m ++ (e₀ :: (E' ++ q))) := List.drop_left p _
  have hsome : matchSeq (canonicalItems S (e₀ :: E'))
      ((p ++ (S ++ (m ++ (e₀ :: (E' ++ q))))).drop p.length) = some q := by
    rw [hdropP, canonicalItems_eq, matchSeq_litSeq_append, isPrefixOf_append_self,
      if_pos rfl, List.drop_left]
    exact matchSeq_tail_phase e₀ E' q hws m h2
  have := findFrom_first (canonicalItems S (e₀ :: E')) q p.length
    (p ++ (S ++ (m ++ (e₀ :: (E' ++ q))))) 0 hnone hsome
  rw [this, hdropP]
  simp only [Option.some.injEq, Prod.mk.injEq, List.length_append, List.length_cons]
  omega

theorem jsReplaceOnce_span (S : List Char) (e₀ : Char) (E' p m q repl : List Char)
    (hws : jsWs e₀ = false)
    (h1 : ∀ k < p.length,
      S.isPrefixOf ((p ++ (S ++ (m ++ (e₀ :: (E' ++ q))))).drop k) = false)
    (h2 : ∀ k < m.length,
      (e₀ :: E').isPrefixOf ((m ++ (e₀ :: (E' ++ q))).drop k) = false)
    (hrepl : ∀ c ∈ repl, c ≠ '$') :
    jsReplaceOnce (canonicalItems S (e₀ :: E')) repl (p ++ (S ++ (m ++ (e₀ :: (E' ++ q))))) =
      p ++ repl ++ q := by
  rw [jsReplaceOnce, findFrom_span S e₀ E' p m q hws h1 h2]
  show (p ++ (S ++ (m ++ (e₀ :: (E' ++ q))))).take p.length ++
      expandRepl ((p ++ (S ++ (m ++ (e₀ :: (E' ++ q))))).take p.length)
        (((p ++ (S ++ (m ++ (e₀ :: (E' ++ q))))).drop p.length).take
          (p.length + S.length + m.length + (e₀ :: E').length - p.length))
        ((p ++ (S ++ (m ++ (e₀ :: (E' ++ q))))).drop
          (p.length + S.length + m.length + (e₀ :: E').length)) repl ++
      (p ++ (S ++ (m ++ (e₀ :: (E' ++ q))))).drop
        (p.length + S.length + m.length + (e₀ :: E').length) = p ++ repl ++ q
  rw [show (p ++ (S ++ (m ++ (e₀ :: (E' ++ q))))).take p.length = p from List.take_left p _]
  have hgroup : p ++ (S ++ (m ++ (e₀ :: (E' ++ q)))) =
      (p ++ S ++ m ++ (e₀ :: E')) ++ q := by simp
  have hlen : (p ++ S ++ m ++ (e₀ :: E')).length =
      p.length + S.length + m.length + (e₀ :: E').length := by
    simp only [List.length_append, List.length_cons]
  have hdropJ : (p ++ (S ++ (m ++ (e₀ :: (E' ++ q))))).drop
      (p.length + S.length + m.length + (e₀ :: E').length) = q := by
    rw [hgroup, ← hlen]
    exact List.drop_left _ q
  rw [hdropJ, expandRepl_no_dollar _ _ _ repl hrepl]

theorem updateFileContent_span (S : List Char) (e₀ : Char) (E' p m q repl : List Char)
    (fom : Bool) (path : String)
    (hws : jsWs e₀ = false)
    (h1 : ∀ k < p.length,
      S.isPrefixOf ((p ++ (S ++ (m ++ (e₀ :: (E' ++ q))))).drop k) = false)
    (h2 : ∀ k < m.length,
      (e₀ :: E').isPrefixOf ((m ++ (e₀ :: (E' ++ q))).drop k) = false)
    (h3 : ∀ k < p.length,
      (e₀ :: E').isPrefixOf ((p ++ (S ++ (m ++ (e₀ :: (E' ++ q))))).drop k) = false)
    (hrepl : ∀ c ∈ repl, c ≠ '$') :
    updateFileContent ⟨S, e₀ :: E', fom⟩ (canonicalItems S (e₀ :: E')) repl path
      (p ++ (S ++ (m ++ (e₀ :: (E' ++ q))))) = .ok (some (p ++ repl ++ q)) := by
  have hdropP : (p ++ (S ++ (m ++ (e₀ :: (E' ++ q))))).drop p.length =
      S ++ (m ++ (e₀ :: (E' ++ q))) := List.drop_left p _
  have hsIdx : idxOf? S (p ++ (S ++ (m ++ (e₀ :: (E' ++ q))))) = some p.length := by
    apply idxOf?_eq_of
    · rw [hdropP]; exact isPrefixOf_append_self S _
    · exact h1
  have hgroup : p ++ (S ++ (m ++ (e₀ :: (E' ++ q)))) =
      (p ++ S ++ m) ++ (e₀ :: (E' ++ q)) := by simp
  have hpreE : (e₀ :: E').isPrefixOf
      ((p ++ (S ++ (m ++ (e₀ :: (E' ++ q))))).drop (p ++ S ++ m).length) = true := by
    rw [hgroup, List.drop_left, ← List.cons_append]
    exact isPrefixOf_append_self _ _
  obtain ⟨ei, hei, _⟩ := idxOf?_min_of_prefix (e₀ :: E') _ _ hpreE
  obtain ⟨_, hmin⟩ := idxOf?_spec (e₀ :: E') _ ei hei
  have heiGe : p.length ≤ ei := by
    by_contra hlt
    push_neg at hlt
    have hp := (idxOf?_spec (e₀ :: E') _ ei hei).1
    rw [h3 ei hlt] at hp
    cases hp
  rw [updateFileContent, hsIdx, hei]
  show (if p.length > ei then
      (if fom = true then
        Except.error ("Markers are missing or misordered in " ++ path)
      else Except.ok none)
    else Except.ok (some (jsReplaceOnce (canonicalItems S (e₀ :: E')) repl
      (p ++ (S ++ (m ++ (e₀ :: (E' ++ q)))))))) = Except.ok (some (p ++ repl ++ q))
  rw [if_neg (by omega)]
  rw [jsReplaceOnce_span S e₀ E' p m q repl hws h1 h2 hrepl]

/-! ## Controller lemmas -/

theorem processOne_flags (cfg : Config) (pat : List RItem) (repl : List Char)
    (rf : String → Except String (List Char)) (f : String) (a : Acc) :
    (processOne cfg pat repl rf f a).commitAttempted = a.commitAttempted ∧
    (processOne cfg pat repl rf f a).pushed = a.pushed ∧
    (processOne cfg pat repl rf f a).prCreated = a.prCreated := by
  unfold processOne
  cases hr : rf f with
  | error e => simp
  | ok content =>
    cases hu : updateFileContent cfg pat repl f content with
    | error e => simp [hu]
    | ok o =>
      cases o with
      | none => simp [hu]
      | some t => by_cases ht : t.isEmpty <;> simp [hu, ht]

theorem gitPhase2_commit (env : Env) (a : Acc) (ha : a.commitAttempted = false)
    (hc : (resultAcc (gitPhase2 env a)).commitAttempted = true) :
    ∃ out, env.exec "git status --porcelain" = .ok out ∧ jsTrim out ≠ "" := by
  unfold gitPhase2 at hc
  split at hc
  · simp [resultAcc, ha] at hc
  · split at hc
    · simp [resultAcc, ha] at hc
    · split at hc
      · simp [resultAcc, ha] at hc
      · split at hc
        · simp [resultAcc, ha] at hc
        · rename_i s4 heq4
          split at hc
          · simp [resultAcc, ha] at hc
          · rename_i porcelain heq5
            split at hc
            · simp [resultAcc, ha] at hc
            · rename_i htrim
              exact ⟨porcelain, heq5, htrim⟩

theorem processFiles_flags (cfg : Config) (pat : List RItem) (repl : List Char)
    (rf : String → Except String (List Char)) :
    ∀ (fs : List String) (a : Acc),
      (processFiles cfg pat repl rf fs a).commitAttempted = a.commitAttempted ∧
      (processFiles cfg pat repl rf fs a).pushed = a.pushed ∧
      (processFiles cfg pat repl rf fs a).prCreated = a.prCreated := by
  intro fs
  induction fs with
  | nil => intro a; exact ⟨rfl, rfl, rfl⟩
  | cons f fs ih =>
    intro a
    have h1 := processOne_flags cfg pat repl rf f a
    have h2 := ih (processOne cfg pat repl rf f a)
    exact ⟨h2.1.trans h1.1, h2.2.1.trans h1.2.1, h2.2.2.trans h1.2.2⟩

theorem processFiles_acc0_commit (cfg : Config) (pat : List RItem) (repl : List Char)
    (rf : String → Except String (List Char)) (fs : List String) :
    (processFiles cfg pat repl rf fs acc0).commitAttempted = false :=
  (processFiles_flags cfg pat repl rf fs acc0).1

theorem main2_eff (cfg : Config) (env : Env) :
    (main2 cfg env).eff = resultAcc (mainTry2 cfg env) := by
  unfold main2
  cases mainTry2 cfg env with
  | ok a => rfl
  | error pr => cases pr; rfl

theorem mainTry2_commit (cfg : Config) (env : Env)
    (hc : (resultAcc (mainTry2 cfg env)).commitAttempted = true) :
    ∃ out, env.exec "git status --porcelain" = .ok out ∧ jsTrim out ≠ "" := by
  unfold mainTry2 at hc
  split at hc
  · simp [resultAcc, acc0] at hc
  · split at hc
    · simp [resultAcc, acc0] at hc
    · split at hc
      · simp [resultAcc, acc0] at hc
      · split at hc
        · simp [resultAcc, acc0] at hc
        · split at hc
          · simp [resultAcc, acc0] at hc
          · split at hc
            · simp [resultAcc, acc0] at hc
            · split at hc
              · simp [resultAcc, acc0] at hc
              · split at hc
                · simp [resultAcc, acc0] at hc
                · split at hc
                  · simp [resultAcc, acc0] at hc
                  · split at hc
                    · simp [resultAcc, processFiles_acc0_commit] at hc
                    · exact gitPhase2_commit env _
                        (processFiles_acc0_commit _ _ _ _ _) hc

theorem computeNames_isSome (tiers : List RawTier)
    (hne : tiers.isEmpty = false)
    (hmem : tiers.any (fun t => t.members.isNone) = false) :
    ∃ nm, computeNames tiers = some nm := by
  unfold computeNames
  cases hg : tiers.get? (tiers.length - 1) with
  | none =>
    rw [List.get?_eq_none] at hg
    cases tiers with
    | nil => simp at hne
    | cons t ts => simp at hg
  | some t =>
    cases hm : t.members with
    | none =>
      have hmemt : t ∈ tiers := List.get?_mem hg
      have := List.any_eq_false.mp hmem t hmemt
      rw [hm] at this
      simp at this
    | some ms =>
      refine ⟨joinSep " · " (ms.map (fun m => m.name)), ?_⟩
      simp [hm]

theorem updateFileContent_markerError (cfg : Config) (pat : List RItem)
    (repl : List Char) (f : String) (content : List Char)
    (hfom : cfg.failOnMissing = true)
    (hmiss : idxOf? cfg.startMarker content = none ∨
      idxOf? cfg.endMarker content = none ∨
      ∃ si ei, idxOf? cfg.startMarker content = some si ∧
        idxOf? cfg.endMarker content = some ei ∧ si > ei) :
    updateFileContent cfg pat repl f content =
      .error ("Markers are missing or misordered in " ++ f) := by
  rcases hmiss with hs | he | ⟨si, ei, hsi, hei, hgt⟩
  · cases hE : idxOf? cfg.endMarker content <;> simp [updateFileContent, hs, hE, hfom]
  · cases hS : idxOf? cfg.startMarker content <;> simp [updateFileContent, he, hS, hfom]
  · simp [updateFileContent, hsi, hei, hgt, hfom]

theorem processOne_marker_missing (cfg : Config) (pat : List RItem)
    (repl : List Char) (rf : String → Except String (List Char)) (f : String)
    (a : Acc) (content : List Char)
    (hread : rf f = .ok content)
    (hfom : cfg.failOnMissing = true)
    (hmiss : idxOf? cfg.startMarker content = none ∨
      idxOf? cfg.endMarker content = none ∨
      ∃ si ei, idxOf? cfg.startMarker content = some si ∧
        idxOf? cfg.endMarker content = some ei ∧ si > ei) :
    processOne cfg pat repl rf f a =
      { a with errorsLogged := a.errorsLogged ++
        ["Failed to process " ++ f ++ ": " ++
          ("Markers are missing or misordered in " ++ f)] } := by
  have hup := updateFileContent_markerError cfg pat repl f content hfom hmiss
  simp [processOne, hread, hup]

theorem createOrUpdatePR1_automerge_fail (p : PrEnv) (a : Acc) (m : String)
    (hl : p.listPRs = .ok 0) (hcr : p.createPR = .ok ())
    (hm : p.autoMerge = .error m) :
    createOrUpdatePR1 p a = .ok
      { a with prCreated := true,
               warnings := a.warnings ++ ["Failed to enable auto-merge: " ++ m],
               infos := a.infos ++ ["Pull request created"] } := by
  simp [createOrUpdatePR1, hl, hcr, hm]

theorem createOrUpdatePR1_ok (p : PrEnv) (a : Acc) (n : Nat)
    (hl : p.listPRs = .ok n) (hcr : n = 0 → p.createPR = .ok ()) :
    ∃ a', createOrUpdatePR1 p a = .ok a' := by
  unfold createOrUpdatePR1
  rw [hl]
  by_cases hn : n = 0
  · rw [hcr hn]
    subst hn
    cases hm : p.autoMerge <;> simp
  · simp [hn]

theorem gitPhase1_ok (env : Env) (a : Acc)
    (hexec : ∀ c, env.exec c = .ok "")
    (hl : env.prs.listPRs = .ok 0) (hcr : env.prs.createPR = .ok ()) :
    ∃ a', gitPhase1 env a = .ok a' := by
  unfold gitPhase1
  simp only [hexec]
  obtain ⟨a', ha'⟩ := createOrUpdatePR1_ok env.prs
    { a with commitAttempted := true, pushed := true } 0 hl (fun _ => hcr)
  rw [ha']
  exact ⟨a', rfl⟩


theorem mainTry1_empty_tiers (cfg : Config) (env : Env) (files : List String)
    (doc : RawDoc)
    (hf : env.filesToUpdate = some files) (hne : files.isEmpty = false)
    (hd : env.fetched = .ok doc) (ht : doc.tiers = some []) :
    mainTry1 cfg env = .ok
      { acc0 with warnings := ["No supporters found in the supporter data."] } := by
  simp [mainTry1, hf, hne, hd, ht]

theorem mainTry2_empty_tiers (cfg : Config) (env : Env) (files : List String)
    (doc : RawDoc)
    (hf : env.filesToUpdate = some files) (hne : files.isEmpty = false)
    (hd : env.fetched = .ok doc) (ht : doc.tiers = some []) :
    mainTry2 cfg env = .ok
      { acc0 with warnings := ["No supporters found in the supporter data."] } := by
  simp [mainTry2, hf, hne, hd, ht]

theorem mainTry1_ok (cfg : Config) (env : Env) (files : List String)
    (doc : RawDoc) (tiers : List RawTier)
    (hf : env.filesToUpdate = some files) (hne : files.isEmpty = false)
    (hd : env.fetched = .ok doc) (ht : doc.tiers = some tiers)
    (htne : tiers.isEmpty = false)
    (hmem : tiers.any (fun t => t.members.isNone) = false)
    (hpat : ∃ pat0, buildPattern cfg = some pat0)
    (hexec : ∀ c, env.exec c = .ok "")
    (hl : env.prs.listPRs = .ok 0) (hcr : env.prs.createPR = .ok ()) :
    ∃ a, mainTry1 cfg env = .ok a := by
  obtain ⟨nm, hnm⟩ := computeNames_isSome tiers htne hmem
  obtain ⟨pat0, hpat0⟩ := hpat
  unfold mainTry1
  simp [hf, hd, ht, hne, hnm, hpat0, hexec, htne, hmem]
  by_cases hw : (processFiles cfg pat0
      (cfg.startMarker ++ (nl2 ++ (nm.data ++ (nl2 ++ cfg.endMarker))))
      env.readFile files acc0).writes = []
  · rw [if_pos hw]
    exact ⟨_, rfl⟩
  · rw [if_neg hw]
    exact gitPhase1_ok env _ hexec hl hcr


/-! ## Claim theorems -/

/-- C2: when the `fail-on-missing-markers` configuration input is not
supplied, the declared default `"true"` is resolved by the input layer and
the strict comparison `=== "true"` on line 16 makes the effective
`failOnMissing` value `true`, so missing or misordered markers are treated
as a fatal `MarkerError` by default. -/
theorem failOnMissingMarkers_default_true (i : Inputs)
    (h : i.failOnMissingMarkersInput = none) :
    (mkConfig i).failOnMissing = true := by
  simp [mkConfig, getInputD, h]

/-- C2 witness: the default-resolved configuration at concrete inputs. -/
theorem failOnMissingMarkers_default_true_instance :
    (mkConfig ⟨none, none, none⟩).failOnMissing = true :=
  failOnMissingMarkers_default_true ⟨none, none, none⟩ rfl

/-- C7: for every roster whose last tier has a present `members` array, the
joined display string computed on lines 111–112 equals the `name` fields of
the last tier's members, in document order, separated by `" · "`; and the
example roster with tiers `[[A], [B, C]]` yields `"B · C"`. -/
theorem joined_names_last_tier :
    (∀ (ts : List RawTier) (t : RawTier) (ms : List Member),
      t.members = some ms →
      computeNames (ts ++ [t]) =
        some (joinSep " · " (ms.map (fun m => m.name)))) ∧
    computeNames [⟨some [⟨"A"⟩]⟩, ⟨some [⟨"B"⟩, ⟨"C"⟩]⟩] = some "B · C" := by
  constructor
  · intro ts t ms hm
    unfold computeNames
    have hlen : (ts ++ [t]).length - 1 = ts.length := by simp
    rw [hlen, List.get?_concat_length]
    simp [hm]
  · rfl

/-- C7 witness: the general last-tier equation applied at the concrete
two-tier roster. -/
theorem joined_names_last_tier_instance :
    (RawTier.mk (some [⟨"B"⟩, ⟨"C"⟩])).members = some [⟨"B"⟩, ⟨"C"⟩] ∧
    computeNames ([RawTier.mk (some [⟨"A"⟩])] ++ [RawTier.mk (some [⟨"B"⟩, ⟨"C"⟩])]) =
      some (joinSep " · " ([Member.mk "B", Member.mk "C"].map (fun m => m.name))) :=
  ⟨rfl, joined_names_last_tier.1 [⟨some [⟨"A"⟩]⟩] ⟨some [⟨"B"⟩, ⟨"C"⟩]⟩
    [⟨"B"⟩, ⟨"C"⟩] rfl⟩

/-- C9: the `catch` block of the first variant references `originalBranch`
and `branchName`, neither of which is in scope there, so whenever the catch
block executes (equivalently, whenever the run sets a failure message), its
recovery commands raise an unbound-variable `ReferenceError` that escapes
unhandled. -/
theorem catch_block_unbound_variables :
    main1ScopeVars.contains "originalBranch" = false ∧
    main1ScopeVars.contains "branchName" = false ∧
    ∀ (cfg : Config) (env : Env) (msg : String),
      (main1 cfg env).failedWith = some msg →
      (main1 cfg env).uncaughtError = some "originalBranch is not defined" := by
  refine ⟨by decide, by decide, ?_⟩
  intro cfg env msg h
  unfold main1 at h ⊢
  cases hm : mainTry1 cfg env with
  | ok a => rw [hm] at h; simp at h
  | error pr =>
    obtain ⟨m, a⟩ := pr
    show (main1Catch m a).uncaughtError = some "originalBranch is not defined"
    unfold main1Catch
    rw [if_neg (by decide)]

/-- C9 witness: a run with no configured files enters the catch block; the
failure message is recorded and the unbound-variable error escapes. -/
theorem catch_block_unbound_variables_instance :
    (main1 cfgAB envNoFiles).failedWith =
      some "No files specified in 'files-to-update'." ∧
    (main1 cfgAB envNoFiles).uncaughtError =
      some "originalBranch is not defined" :=
  ⟨by decide,
   catch_block_unbound_variables.2.2 cfgAB envNoFiles
     "No files specified in 'files-to-update'." (by decide)⟩


/-- C1 counterexample: with `fail-on-missing-markers` true and a target file
whose text lacks both markers, the `MarkerError` does **not** propagate to
the top level: the run terminates with no failure signal, no unhandled
error, no write, and the error merely logged. -/
theorem markerError_does_not_fail_run_example :
    (main1 cfgAB envMarkerMiss).failedWith = none ∧
    (main1 cfgAB envMarkerMiss).uncaughtError = none ∧
    (main1 cfgAB envMarkerMiss).eff.writes = [] ∧
    (main1 cfgAB envMarkerMiss).eff.errorsLogged =
      ["Failed to process README.md: " ++
        ("Markers are missing or misordered in README.md")] := by
  decide

/-- C1 (amended): a `MarkerError` raised for a target file under
`fail-on-missing-markers = true` is caught by the per-file loop — the file
is skipped and the error logged — and it never produces a run-level failure
signal: whenever the rest of the pipeline succeeds, the run completes
without failure for arbitrary file contents. -/
theorem markerError_caught_per_file :
    (∀ (cfg : Config) (pat : List RItem) (repl : List Char)
        (rf : String → Except String (List Char)) (f : String) (a : Acc)
        (content : List Char),
      rf f = .ok content →
      cfg.failOnMissing = true →
      (idxOf? cfg.startMarker content = none ∨
        idxOf? cfg.endMarker content = none ∨
        ∃ si ei, idxOf? cfg.startMarker content = some si ∧
          idxOf? cfg.endMarker content = some ei ∧ si > ei) →
      processOne cfg pat repl rf f a =
        { a with errorsLogged := a.errorsLogged ++
          ["Failed to process " ++ f ++ ": " ++
            ("Markers are missing or misordered in " ++ f)] }) ∧
    (∀ (cfg : Config) (env : Env) (files : List String) (doc : RawDoc)
        (tiers : List RawTier),
      env.filesToUpdate = some files → files.isEmpty = false →
      env.fetched = .ok doc → doc.tiers = some tiers →
      tiers.isEmpty = false →
      tiers.any (fun t => t.members.isNone) = false →
      (∃ pat0, buildPattern cfg = some pat0) →
      (∀ c, env.exec c = .ok "") →
      env.prs.listPRs = .ok 0 → env.prs.createPR = .ok () →
      (main1 cfg env).failedWith = none ∧
      (main1 cfg env).uncaughtError = none) := by
  constructor
  · exact processOne_marker_missing
  · intro cfg env files doc tiers hf hne hd ht htne hmem hpat hexec hl hcr
    obtain ⟨a, ha⟩ :=
      mainTry1_ok cfg env files doc tiers hf hne hd ht htne hmem hpat hexec hl hcr
    unfold main1
    rw [ha]
    exact ⟨rfl, rfl⟩

/-- C1 witness: the per-file catch at a concrete marker-free file, and a
concrete run whose only anomaly is the missing markers finishing without a
failure signal. -/
theorem markerError_caught_per_file_instance :
    processOne cfgAB (canonicalItems ['A'] ['B']) [] (fun _ => .ok ['h', 'i'])
      "f" acc0 =
      { acc0 with errorsLogged := acc0.errorsLogged ++
        ["Failed to process " ++ "f" ++ ": " ++
          ("Markers are missing or misordered in " ++ "f")] } ∧
    (main1 cfgAB envMarkerMiss).failedWith = none ∧
    (main1 cfgAB envMarkerMiss).uncaughtError = none :=
  ⟨markerError_caught_per_file.1 cfgAB (canonicalItems ['A'] ['B']) []
      (fun _ => .ok ['h', 'i']) "f" acc0 ['h', 'i'] rfl rfl (Or.inl (by decide)),
   markerError_caught_per_file.2 cfgAB envMarkerMiss ["README.md"] docN
     [⟨some [⟨"N"⟩]⟩] rfl rfl rfl rfl rfl (by decide) ⟨_, rfl⟩
     (fun _ => rfl) rfl rfl⟩

/-- C6 counterexample: in the third script variant an empty `tiers` sequence
passes validation, `tiers[tiers.length - 1]` is `undefined`, and reading its
`members` raises a `TypeError` that terminates the run with a failure
signal — not a successful no-op. -/
theorem empty_tiers_fails_variant3 :
    (main3 cfgAB envEmptyTiers).failedWith =
      some "Cannot read properties of undefined (reading 'members')" ∧
    (main3 cfgAB envEmptyTiers).eff.writes = [] ∧
    (main3 cfgAB envEmptyTiers).eff.prCreated = false := by
  decide

/-- C6 (amended): in the first and second script variants a fetched roster
with an empty `tiers` sequence terminates the run successfully — no failure
signal, zero file writes, no commit and no pull request; the third variant
instead fails with a `TypeError`. -/
theorem empty_tiers_successful_noop :
    (∀ (cfg : Config) (env : Env) (files : List String) (doc : RawDoc),
      env.filesToUpdate = some files → files.isEmpty = false →
      env.fetched = .ok doc → doc.tiers = some [] →
      (main1 cfg env).failedWith = none ∧
      (main1 cfg env).eff.writes = [] ∧
      (main1 cfg env).eff.prCreated = false ∧
      (main1 cfg env).eff.commitAttempted = false) ∧
    (∀ (cfg : Config) (env : Env) (files : List String) (doc : RawDoc),
      env.filesToUpdate = some files → files.isEmpty = false →
      env.fetched = .ok doc → doc.tiers = some [] →
      (main2 cfg env).failedWith = none ∧
      (main2 cfg env).eff.writes = [] ∧
      (main2 cfg env).eff.prCreated = false ∧
      (main2 cfg env).eff.commitAttempted = false) := by
  constructor
  · intro cfg env files doc hf hne hd ht
    have he := mainTry1_empty_tiers cfg env files doc hf hne hd ht
    unfold main1
    rw [he]
    exact ⟨rfl, rfl, rfl, rfl⟩
  · intro cfg env files doc hf hne hd ht
    have he := mainTry2_empty_tiers cfg env files doc hf hne hd ht
    unfold main2
    rw [he]
    exact ⟨rfl, rfl, rfl, rfl⟩

/-- C6 witness: both hardened variants at a concrete empty-roster
environment. -/
theorem empty_tiers_successful_noop_instance :
    ((main1 cfgAB envEmptyTiers).failedWith = none ∧
     (main1 cfgAB envEmptyTiers).eff.writes = [] ∧
     (main1 cfgAB envEmptyTiers).eff.prCreated = false ∧
     (main1 cfgAB envEmptyTiers).eff.commitAttempted = false) ∧
    ((main2 cfgAB envEmptyTiers).failedWith = none ∧
     (main2 cfgAB envEmptyTiers).eff.writes = [] ∧
     (main2 cfgAB envEmptyTiers).eff.prCreated = false ∧
     (main2 cfgAB envEmptyTiers).eff.commitAttempted = false) :=
  ⟨empty_tiers_successful_noop.1 cfgAB envEmptyTiers ["README.md"] ⟨some []⟩
     rfl rfl rfl rfl,
   empty_tiers_successful_noop.2 cfgAB envEmptyTiers ["README.md"] ⟨some []⟩
     rfl rfl rfl rfl⟩

/-- C8: a failure of the enable-auto-merge call inside `createOrUpdatePR` is
caught at the call site and becomes a logged warning on a successful result
with the pull request created; the call never throws when listing and
creation succeed, whatever auto-merge does; and a full run in which only
auto-merge fails terminates without a failure signal. -/
theorem auto_merge_failure_nonfatal :
    (∀ (p : PrEnv) (a : Acc) (m : String),
      p.listPRs = .ok 0 → p.createPR = .ok () → p.autoMerge = .error m →
      createOrUpdatePR1 p a = .ok
        { a with prCreated := true,
                 warnings := a.warnings ++ ["Failed to enable auto-merge: " ++ m],
                 infos := a.infos ++ ["Pull request created"] }) ∧
    (∀ (p : PrEnv) (a : Acc) (n : Nat),
      p.listPRs = .ok n → (n = 0 → p.createPR = .ok ()) →
      ∃ a', createOrUpdatePR1 p a = .ok a') ∧
    (∀ (cfg : Config) (env : Env) (files : List String) (doc : RawDoc)
        (tiers : List RawTier),
      env.filesToUpdate = some files → files.isEmpty = false →
      env.fetched = .ok doc → doc.tiers = some tiers →
      tiers.isEmpty = false →
      tiers.any (fun t => t.members.isNone) = false →
      (∃ pat0, buildPattern cfg = some pat0) →
      (∀ c, env.exec c = .ok "") →
      env.prs.listPRs = .ok 0 → env.prs.createPR = .ok () →
      (main1 cfg env).failedWith = none) := by
  refine ⟨createOrUpdatePR1_automerge_fail, createOrUpdatePR1_ok, ?_⟩
  intro cfg env files doc tiers hf hne hd ht htne hmem hpat hexec hl hcr
  obtain ⟨a, ha⟩ :=
    mainTry1_ok cfg env files doc tiers hf hne hd ht htne hmem hpat hexec hl hcr
  unfold main1
  rw [ha]

/-- C8 witness: the warning-downgrade equation at a concrete failing
auto-merge gateway, and a concrete full run with failing auto-merge ending
without a failure signal. -/
theorem auto_merge_failure_nonfatal_instance :
    createOrUpdatePR1 prAmFail acc0 = .ok
      { acc0 with prCreated := true,
                  warnings := acc0.warnings ++
                    ["Failed to enable auto-merge: " ++
                      "Resource not accessible by integration"],
                  infos := acc0.infos ++ ["Pull request created"] } ∧
    (main1 cfgAB envAmFail).failedWith = none :=
  ⟨auto_merge_failure_nonfatal.1 prAmFail acc0
     "Resource not accessible by integration" rfl rfl rfl,
   auto_merge_failure_nonfatal.2.2 cfgAB envAmFail ["README.md"] docN
     [⟨some [⟨"N"⟩]⟩] rfl rfl rfl rfl rfl (by decide) ⟨_, rfl⟩
     (fun _ => rfl) rfl rfl⟩


/-- C5 counterexample: the first script variant decides to commit from the
in-memory flag alone.  With a target file whose substitution output is
byte-identical to its prior content, the file is rewritten with the same
bytes — so staging has no pending changes, and the porcelain oracle reports
none — yet the commit is still attempted. -/
theorem commit_attempted_on_flag_alone_variant1 :
    (main1 cfgAB envIdem).eff.commitAttempted = true ∧
    envIdem.readFile "README.md" = .ok ['A', '\n', '\n', 'N', '\n', '\n', 'B'] ∧
    (main1 cfgAB envIdem).eff.writes =
      [("README.md", ['A', '\n', '\n', 'N', '\n', '\n', 'B'])] ∧
    envIdem.exec "git status --porcelain" = .ok "" := by
  decide

/-- C5 (amended): in the second script variant a commit is attempted only
when `git status --porcelain`, consulted after staging, reports pending
changes: whenever the run attempted a commit, the porcelain call succeeded
with a non-blank status. -/
theorem commit_requires_porcelain_changes_variant2 (cfg : Config) (env : Env)
    (hc : (main2 cfg env).eff.commitAttempted = true) :
    ∃ out, env.exec "git status --porcelain" = .ok out ∧ jsTrim out ≠ "" := by
  rw [main2_eff] at hc
  exact mainTry2_commit cfg env hc

/-- C5 witness: a concrete second-variant run that really commits, whose
porcelain status is non-blank. -/
theorem commit_requires_porcelain_changes_variant2_instance :
    ∃ out, envChange.exec "git status --porcelain" = .ok out ∧ jsTrim out ≠ "" :=
  commit_requires_porcelain_changes_variant2 cfgAB envChange (by decide)

/-- C3: when the configured markers compile to the literal pattern
`START\s*[\s\S]*?\s*END` (as they do for metacharacter-free marker strings),
substitution on a file text whose first start-marker occurrence begins at
`p.length` and whose first subsequent end-marker occurrence follows the
middle `m` replaces exactly that span with
`start ++ "\n\n" ++ names ++ "\n\n" ++ end`, leaving the prefix `p` and the
suffix `q` — which may hold further marker pairs — untouched. -/
theorem marker_substitution_replaces_first_span
    (S : List Char) (e₀ : Char) (E' p m q N : List Char) (fom : Bool)
    (path : String)
    (hpat : buildPattern ⟨S, e₀ :: E', fom⟩ = some (canonicalItems S (e₀ :: E')))
    (hws : jsWs e₀ = false)
    (h1 : ∀ k < p.length,
      S.isPrefixOf ((p ++ (S ++ (m ++ (e₀ :: (E' ++ q))))).drop k) = false)
    (h2 : ∀ k < m.length,
      (e₀ :: E').isPrefixOf ((m ++ (e₀ :: (E' ++ q))).drop k) = false)
    (h3 : ∀ k < p.length,
      (e₀ :: E').isPrefixOf ((p ++ (S ++ (m ++ (e₀ :: (E' ++ q))))).drop k) = false)
    (hrepl : ∀ c ∈ (S ++ nl2 ++ N ++ nl2 ++ (e₀ :: E')), c ≠ '$') :
    updateFileContent ⟨S, e₀ :: E', fom⟩ (canonicalItems S (e₀ :: E'))
      (S ++ nl2 ++ N ++ nl2 ++ (e₀ :: E')) path
      (p ++ (S ++ (m ++ (e₀ :: (E' ++ q))))) =
      .ok (some (p ++ (S ++ nl2 ++ N ++ nl2 ++ (e₀ :: E')) ++ q)) :=
  updateFileContent_span S e₀ E' p m q (S ++ nl2 ++ N ++ nl2 ++ (e₀ :: E'))
    fom path hws h1 h2 h3 hrepl

/-- C3 witness: the span replacement at a concrete file `xAyBz` with markers
`A`/`B` and names `N`. -/
theorem marker_substitution_replaces_first_span_instance :
    updateFileContent ⟨['A'], ['B'], true⟩ (canonicalItems ['A'] ['B'])
      (['A'] ++ nl2 ++ ['N'] ++ nl2 ++ ['B']) "README.md"
      ['x', 'A', 'y', 'B', 'z'] =
      .ok (some ['x', 'A', '\n', '\n', 'N', '\n', '\n', 'B', 'z']) :=
  marker_substitution_replaces_first_span ['A'] 'B' [] ['x'] ['y'] ['z'] ['N']
    true "README.md" rfl (by decide) (by decide) (by decide) (by decide)
    (by decide)

/-- C4: substitution is idempotent: applying it to a marker-delimited text
yields the canonical form `p ++ start ++ "\n\n" ++ names ++ "\n\n" ++ end ++ q`,
and applying it again to that result (the markers not recurring in the
injected middle) returns the byte-identical text. -/
theorem marker_substitution_idempotent
    (S : List Char) (e₀ : Char) (E' p m q N : List Char) (fom : Bool)
    (path : String)
    (hpat : buildPattern ⟨S, e₀ :: E', fom⟩ = some (canonicalItems S (e₀ :: E')))
    (hws : jsWs e₀ = false)
    (h1 : ∀ k < p.length,
      S.isPrefixOf ((p ++ (S ++ (m ++ (e₀ :: (E' ++ q))))).drop k) = false)
    (h2 : ∀ k < m.length,
      (e₀ :: E').isPrefixOf ((m ++ (e₀ :: (E' ++ q))).drop k) = false)
    (h3 : ∀ k < p.length,
      (e₀ :: E').isPrefixOf ((p ++ (S ++ (m ++ (e₀ :: (E' ++ q))))).drop k) = false)
    (h1' : ∀ k < p.length,
      S.isPrefixOf ((p ++ (S ++ ((nl2 ++ N ++ nl2) ++ (e₀ :: (E' ++ q))))).drop k) = false)
    (h2' : ∀ k < (nl2 ++ N ++ nl2).length,
      (e₀ :: E').isPrefixOf (((nl2 ++ N ++ nl2) ++ (e₀ :: (E' ++ q))).drop k) = false)
    (h3' : ∀ k < p.length,
      (e₀ :: E').isPrefixOf ((p ++ (S ++ ((nl2 ++ N ++ nl2) ++ (e₀ :: (E' ++ q))))).drop k) = false)
    (hrepl : ∀ c ∈ (S ++ nl2 ++ N ++ nl2 ++ (e₀ :: E')), c ≠ '$') :
    updateFileContent ⟨S, e₀ :: E', fom⟩ (canonicalItems S (e₀ :: E'))
      (S ++ nl2 ++ N ++ nl2 ++ (e₀ :: E')) path
      (p ++ (S ++ (m ++ (e₀ :: (E' ++ q))))) =
      .ok (some (p ++ (S ++ ((nl2 ++ N ++ nl2) ++ (e₀ :: (E' ++ q)))))) ∧
    updateFileContent ⟨S, e₀ :: E', fom⟩ (canonicalItems S (e₀ :: E'))
      (S ++ nl2 ++ N ++ nl2 ++ (e₀ :: E')) path
      (p ++ (S ++ ((nl2 ++ N ++ nl2) ++ (e₀ :: (E' ++ q))))) =
      .ok (some (p ++ (S ++ ((nl2 ++ N ++ nl2) ++ (e₀ :: (E' ++ q)))))) := by
  have hshape : p ++ (S ++ nl2 ++ N ++ nl2 ++ (e₀ :: E')) ++ q =
      p ++ (S ++ ((nl2 ++ N ++ nl2) ++ (e₀ :: (E' ++ q)))) := by
    simp
  constructor
  · rw [updateFileContent_span S e₀ E' p m q
      (S ++ nl2 ++ N ++ nl2 ++ (e₀ :: E')) fom path hws h1 h2 h3 hrepl, hshape]
  · rw [updateFileContent_span S e₀ E' p (nl2 ++ N ++ nl2) q
      (S ++ nl2 ++ N ++ nl2 ++ (e₀ :: E')) fom path hws h1' h2' h3' hrepl, hshape]

/-- C4 witness: substituting `xAyBz` and re-substituting the result with the
same names yields byte-identical output. -/
theorem marker_substitution_idempotent_instance :
    updateFileContent ⟨['A'], ['B'], true⟩ (canonicalItems ['A'] ['B'])
      (['A'] ++ nl2 ++ ['N'] ++ nl2 ++ ['B']) "README.md"
      ['x', 'A', 'y', 'B', 'z'] =
      .ok (some ['x', 'A', '\n', '\n', 'N', '\n', '\n', 'B', 'z']) ∧
    updateFileContent ⟨['A'], ['B'], true⟩ (canonicalItems ['A'] ['B'])
      (['A'] ++ nl2 ++ ['N'] ++ nl2 ++ ['B']) "README.md"
      ['x', 'A', '\n', '\n', 'N', '\n', '\n', 'B', 'z'] =
      .ok (some ['x', 'A', '\n', '\n', 'N', '\n', '\n', 'B', 'z']) :=
  marker_substitution_idempotent ['A'] 'B' [] ['x'] ['y'] ['z'] ['N'] true
    "README.md" rfl (by decide) (by decide) (by decide) (by decide)
    (by decide) (by decide) (by decide) (by decide)

/-- C10: marker strings are spliced into the pattern without escaping and
the replacement uses `String.replace` dollar-pattern semantics.  With start
marker `a+b` the markers are literally present (found by `indexOf`) but the
compiled pattern `a+b\s*[\s\S]*?\s*E` does not match, so `updateFileContent`
returns the input unchanged — different from the literal concatenation —
while the caller still records a change and rewrites the file; and with a
member name `$&` the expanded replacement differs from the literal
concatenation. -/
theorem regex_metacharacters_break_literal_substitution :
    buildPattern cfgPlus = some patPlus ∧
    updateFileContent cfgPlus patPlus
      (['a', '+', 'b'] ++ nl2 ++ ['N'] ++ nl2 ++ ['E']) "README.md"
      ['a', '+', 'b', ' ', 'X', 'X', ' ', 'E'] =
      .ok (some ['a', '+', 'b', ' ', 'X', 'X', ' ', 'E']) ∧
    (['a', '+', 'b', ' ', 'X', 'X', ' ', 'E'] :  List Char) ≠
      [] ++ (['a', '+', 'b'] ++ nl2 ++ ['N'] ++ nl2 ++ ['E']) ++ [] ∧
    processOne cfgPlus patPlus
      (['a', '+', 'b'] ++ nl2 ++ ['N'] ++ nl2 ++ ['E'])
      (fun _ => .ok ['a', '+', 'b', ' ', 'X', 'X', ' ', 'E']) "README.md" acc0 =
      { acc0 with
        writes := [("README.md", ['a', '+', 'b', ' ', 'X', 'X', ' ', 'E'])],
        infos := ["Updated README.md with supporter names."] } ∧
    updateFileContent cfgAB (canonicalItems ['A'] ['B'])
      (['A'] ++ nl2 ++ ['$', '&'] ++ nl2 ++ ['B']) "README.md"
      ['A', 'x', 'B'] =
      .ok (some (['A'] ++ nl2 ++ ['A', 'x', 'B'] ++ nl2 ++ ['B'])) ∧
    (['A'] ++ nl2 ++ (['A', 'x', 'B'] : List Char) ++ nl2 ++ ['B']) ≠
      ['A'] ++ nl2 ++ ['$', '&'] ++ nl2 ++ ['B'] := by
  refine ⟨rfl, by decide, by decide, by decide, by decide, by decide⟩

end ActionPatrons
